import Mathlib

/-!
Verification of the rock-paper-scissors webcam game core.

The definitions below are a shallow embedding of the TypeScript source:
  * `GameChoice`, `GameResult`, `GamePhase`, `getResult`, `startRound`,
    `resolveRound`, `resetGame` from `src/hooks/useGameLogic.ts`;
  * the capture voting (`resolveVotes`, `handleCapture`) from the
    `GameArena` component (`handleCapture` callback);
  * the classifier-adapter thresholding (`getTopPrediction`, `predict`)
    from `src/hooks/useTeachableModel.ts`.
React state (`useState` cells) is modelled as an explicit `GameState`
record; the `setInterval` countdown timer is modelled by a `timer` field
holding the callback's closure counter when an interval is scheduled
(`none` = no scheduled interval), with `timerTick` embedding one firing
of the interval callback. Randomness (`getComputerChoice`) and the
classifier's sampled outputs are passed in as explicit parameters.
-/

/-- The label set of `useTeachableModel.ts`:
`type GameChoice = "idle" | "rock" | "paper" | "scisors"` (sic: the source
spells scissors as `scisors`). -/
inductive GameChoice where
  | idle
  | rock
  | paper
  | scisors
deriving DecidableEq, Repr, Fintype

/-- The non-null values of `type GameResult = "win" | "lose" | "draw" | null`;
the `null` case is modelled as `Option.none` where the state stores it. -/
inductive GameResult where
  | win
  | lose
  | draw
deriving DecidableEq, Repr, Fintype

/-- `type GamePhase = "waiting" | "countdown" | "capture" | "result"`. -/
inductive GamePhase where
  | waiting
  | countdown
  | capture
  | result
deriving DecidableEq, Repr, Fintype

/-- `const CHOICES: GameChoice[] = ["rock", "paper", "scisors"]` — the pool
`getComputerChoice()` draws from uniformly at random. The random draw itself
is modelled by passing the computer's pick as a parameter. -/
def CHOICES : List GameChoice :=
  [GameChoice.rock, GameChoice.paper, GameChoice.scisors]

/-- `getResult(player, computer)` from `useGameLogic.ts`:
idle player loses; equal picks draw; rock>scisors, paper>rock,
scisors>paper win; otherwise lose. -/
def getResult (player computer : GameChoice) : GameResult :=
  if player = GameChoice.idle then GameResult.lose
  else if player = computer then GameResult.draw
  else if (player = GameChoice.rock ∧ computer = GameChoice.scisors)
       ∨ (player = GameChoice.paper ∧ computer = GameChoice.rock)
       ∨ (player = GameChoice.scisors ∧ computer = GameChoice.paper)
  then GameResult.win
  else GameResult.lose

/-- The `score` state cell `{ player: 0, computer: 0 }`. -/
structure Score where
  player : Nat
  computer : Nat
deriving DecidableEq, Repr

/-- The state cells of the `useGameLogic` hook, plus a `timer` field
modelling `timerRef` together with the interval callback's closure
counter `count`: `some k` means an interval is scheduled and its closure
holds `count = k`; `none` means no interval is scheduled. -/
structure GameState where
  phase : GamePhase
  countdown : Nat
  playerChoice : GameChoice
  computerChoice : GameChoice
  result : Option GameResult
  score : Score
  roundNumber : Nat
  timer : Option Nat
deriving DecidableEq, Repr

/-- The initial hook state: `useState("waiting")`, `useState(3)`,
`useState("idle")` twice, `useState(null)`, `useState({player:0,computer:0})`,
`useState(0)`, `useRef(null)`. -/
def initialGameState : GameState :=
  { phase := GamePhase.waiting
    countdown := 3
    playerChoice := GameChoice.idle
    computerChoice := GameChoice.idle
    result := none
    score := { player := 0, computer := 0 }
    roundNumber := 0
    timer := none }

/-- `startRound` from `useGameLogic.ts`: enters countdown, clears the
shown result and choices, sets the local `count = 3`, shows it, and
schedules the interval (`timerRef.current = setInterval(...)` with the
closure holding `count = 3`). -/
def startRound (s : GameState) : GameState :=
  { s with
    phase := GamePhase.countdown
    result := none
    playerChoice := GameChoice.idle
    computerChoice := GameChoice.idle
    countdown := 3
    timer := some 3 }

/-- One firing of the `setInterval` callback in `startRound`: decrement
the closure counter; while it stays positive show it, otherwise clear the
interval and enter the capture phase (the code then invokes `onCapture`,
modelled separately by `captureStep`). When no interval is scheduled
nothing fires. -/
def timerTick (s : GameState) : GameState :=
  match s.timer with
  | none => s
  | some count =>
    let count' := count - 1
    if count' > 0 then { s with countdown := count', timer := some count' }
    else { s with timer := none, phase := GamePhase.capture }

/-- The score update inside `resolveRound`: `win` bumps the player's
score, `lose` bumps the computer's, `draw` leaves both. -/
def updateScore (res : GameResult) (sc : Score) : Score :=
  match res with
  | GameResult.win => { sc with player := sc.player + 1 }
  | GameResult.lose => { sc with computer := sc.computer + 1 }
  | GameResult.draw => sc

/-- `resolveRound(playerPick)` from `useGameLogic.ts`, with the random
`getComputerChoice()` draw passed in as `compPick`: records both picks,
stores the outcome, enters the result phase, increments the round number
and updates the score. -/
def resolveRound (playerPick compPick : GameChoice) (s : GameState) : GameState :=
  { s with
    playerChoice := playerPick
    computerChoice := compPick
    result := some (getResult playerPick compPick)
    phase := GamePhase.result
    roundNumber := s.roundNumber + 1
    score := updateScore (getResult playerPick compPick) s.score }

/-- `resetGame` from `useGameLogic.ts`: resets every `useState` cell to
its initial value. Note that the source does not touch `timerRef` and
does not call `clearInterval`, so a scheduled interval stays scheduled. -/
def resetGame (s : GameState) : GameState :=
  { s with
    phase := GamePhase.waiting
    countdown := 3
    playerChoice := GameChoice.idle
    computerChoice := GameChoice.idle
    result := none
    score := { player := 0, computer := 0 }
    roundNumber := 0 }

/-- A sequence of round resolutions: each list entry is one round's
(player pick, computer pick). -/
def playRounds (s : GameState) (picks : List (GameChoice × GameChoice)) : GameState :=
  picks.foldl (fun st pc => resolveRound pc.1 pc.2 st) s

/-- Number of player wins accumulated across a sequence of rounds. -/
def winsIn : List (GameChoice × GameChoice) → Nat
  | [] => 0
  | pc :: rest => (if getResult pc.1 pc.2 = GameResult.win then 1 else 0) + winsIn rest

/-- Number of player losses accumulated across a sequence of rounds. -/
def lossesIn : List (GameChoice × GameChoice) → Nat
  | [] => 0
  | pc :: rest => (if getResult pc.1 pc.2 = GameResult.lose then 1 else 0) + lossesIn rest

/-- Key insertion into the `counts` object of `handleCapture`: a string
key is appended on first write and reused afterwards. -/
def insertKey (ks : List GameChoice) (c : GameChoice) : List GameChoice :=
  if c ∈ ks then ks else ks ++ [c]

/-- The key order of the `counts` object built by
`for (const r of readings) counts[r] = (counts[r] || 0) + 1`:
`Object.entries` yields non-numeric string keys in insertion order, i.e.
in order of first occurrence in `readings`. -/
def entryOrder (readings : List GameChoice) : List GameChoice :=
  readings.foldl insertKey []

/-- The voting of `handleCapture` in `GameArena`: build the per-label
counts, scan `Object.entries(counts)` keeping the first non-idle entry
whose count strictly exceeds the best so far, then fall back to idle when
the best count is below 2. -/
def resolveVotes (readings : List GameChoice) : GameChoice :=
  let entries := (entryOrder readings).map (fun c => (c, readings.count c))
  let best := entries.foldl
    (fun (acc : GameChoice × Nat) e =>
      if e.1 ≠ GameChoice.idle ∧ e.2 > acc.2 then e else acc)
    (GameChoice.idle, 0)
  if best.2 < 2 then GameChoice.idle else best.1

/-- A webcam video frame; `WebcamHandle.getVideo()` returns such a frame
or `null`, modelled as `Option Frame`. The frame contents are opaque to
the game core. -/
inductive Frame where
  | mk
deriving DecidableEq, Repr

/-- The player pick computed by `handleCapture`: when `getVideo()` yields
no frame the pick is forced to idle without sampling the classifier
(the `readings` oracle is ignored); otherwise the 5 sampled labels are
resolved by majority voting. -/
def handleCapture (video : Option Frame) (readings : List GameChoice) : GameChoice :=
  match video with
  | none => GameChoice.idle
  | some _ => resolveVotes readings

/-- The whole capture procedure including the `resolveRound` call at its
end, with the classifier's sampled labels (`readings`) and the computer's
random pick (`compPick`) passed in as parameters. -/
def captureStep (video : Option Frame) (readings : List GameChoice)
    (compPick : GameChoice) (s : GameState) : GameState :=
  match video with
  | none => resolveRound GameChoice.idle compPick s
  | some _ => resolveRound (resolveVotes readings) compPick s

/-- One entry of the list returned by `predict` in `useTeachableModel.ts`:
`{ className, probability }`. The source casts `className` with
`as GameChoice`, trusting the model metadata, so it is embedded at type
`GameChoice`; probabilities are embedded as rationals. -/
structure Prediction where
  className : GameChoice
  probability : ℚ
deriving DecidableEq, Repr

/-- The `reduce` in `getTopPrediction`:
`predictions.reduce((a, b) => a.probability > b.probability ? a : b)`,
i.e. a left fold over the tail with the head as the accumulator. -/
def topOf (p : Prediction) (ps : List Prediction) : Prediction :=
  ps.foldl (fun a b => if a.probability > b.probability then a else b) p

/-- `predict` from `useTeachableModel.ts`, abstracting the tensor math:
when no model instance is loaded (or inference throws) it returns `[]`;
otherwise it returns the model's label/probability list `raw`. -/
def predict (modelAvailable : Bool) (raw : List Prediction) : List Prediction :=
  if modelAvailable then raw else []

/-- `getTopPrediction` from `useTeachableModel.ts`: empty prediction list
yields idle; otherwise take the highest-probability entry and force idle
when its probability is below the 0.6 threshold. -/
def getTopPrediction (predictions : List Prediction) : GameChoice :=
  match predictions with
  | [] => GameChoice.idle
  | p :: ps =>
    let top := topOf p ps
    if top.probability < 3/5 then GameChoice.idle else top.className

/-- The characterization of the capture voting: either no non-idle label
reaches 2 votes and the resolution is idle, or the resolution is the
non-idle label of maximal count (at least 2), first seen among equal
counts. -/
def majoritySpec (readings : List GameChoice) : Prop :=
  (resolveVotes readings = GameChoice.idle ∧
    ∀ c, c ≠ GameChoice.idle → readings.count c < 2) ∨
  (resolveVotes readings ≠ GameChoice.idle ∧
    2 ≤ readings.count (resolveVotes readings) ∧
    (∀ c, c ≠ GameChoice.idle →
      readings.count c ≤ readings.count (resolveVotes readings)) ∧
    (∀ c, c ≠ GameChoice.idle →
      readings.count c = readings.count (resolveVotes readings) →
      readings.indexOf (resolveVotes readings) ≤ readings.indexOf c))

/-!
Helper lemmas shared by the claim theorems.
-/

lemma length_five_eq (l : List GameChoice) (h : l.length = 5) :
    ∃ a b c d e, l = [a, b, c, d, e] := by
  rcases l with _ | ⟨a, l⟩
  · simp at h
  rcases l with _ | ⟨b, l⟩
  · simp at h
  rcases l with _ | ⟨c, l⟩
  · simp at h
  rcases l with _ | ⟨d, l⟩
  · simp at h
  rcases l with _ | ⟨e, l⟩
  · simp at h
  rcases l with _ | ⟨f, l⟩
  · exact ⟨a, b, c, d, e, rfl⟩
  · simp at h

lemma resolveRound_round (p c : GameChoice) (s : GameState) :
    (resolveRound p c s).roundNumber = s.roundNumber + 1 := rfl

lemma resolveRound_player_score (p c : GameChoice) (s : GameState) :
    (resolveRound p c s).score.player
      = s.score.player + (if getResult p c = GameResult.win then 1 else 0) := by
  cases h : getResult p c <;> simp [resolveRound, updateScore, h]

lemma resolveRound_computer_score (p c : GameChoice) (s : GameState) :
    (resolveRound p c s).score.computer
      = s.score.computer + (if getResult p c = GameResult.lose then 1 else 0) := by
  cases h : getResult p c <;> simp [resolveRound, updateScore, h]

lemma playRounds_cons (pc : GameChoice × GameChoice)
    (rest : List (GameChoice × GameChoice)) (s : GameState) :
    playRounds s (pc :: rest) = playRounds (resolveRound pc.1 pc.2 s) rest := rfl

lemma playRounds_spec (picks : List (GameChoice × GameChoice)) (s : GameState) :
    (playRounds s picks).roundNumber = s.roundNumber + picks.length ∧
    (playRounds s picks).score.player = s.score.player + winsIn picks ∧
    (playRounds s picks).score.computer = s.score.computer + lossesIn picks := by
  induction picks generalizing s with
  | nil => simp [playRounds, winsIn, lossesIn]
  | cons pc rest ih =>
    obtain ⟨h1, h2, h3⟩ := ih (resolveRound pc.1 pc.2 s)
    rw [playRounds_cons]
    refine ⟨?_, ?_, ?_⟩
    · rw [h1, resolveRound_round, List.length_cons]
      omega
    · rw [h2, resolveRound_player_score]
      show _ = s.score.player + winsIn (pc :: rest)
      rw [winsIn]
      omega
    · rw [h3, resolveRound_computer_score]
      show _ = s.score.computer + lossesIn (pc :: rest)
      rw [lossesIn]
      omega

lemma topOf_mem (p : Prediction) (ps : List Prediction) : topOf p ps ∈ p :: ps := by
  induction ps generalizing p with
  | nil => simp [topOf]
  | cons b ps ih =>
    have hstep : topOf p (b :: ps)
        = topOf (if p.probability > b.probability then p else b) ps := rfl
    rw [hstep]
    rcases List.mem_cons.mp (ih (if p.probability > b.probability then p else b)) with h1 | h1
    · rw [h1]
      by_cases hpb : p.probability > b.probability
      · simp [hpb]
      · simp [hpb]
    · exact List.mem_cons_of_mem _ (List.mem_cons_of_mem _ h1)

/-!
Claim theorems.
-/

/-- Claim C1: for every list of 5 sampled labels, the capture resolution
counts occurrences of each non-idle label and resolves to the non-idle
label with the highest count provided that count is at least 2; if no
non-idle label reaches 2 votes the resolved move is idle (forfeit); among
non-idle labels with equal highest count, the one encountered first in
iteration order (first occurrence in the sample list) wins. -/
theorem resolveVotes_majority_spec (readings : List GameChoice)
    (h5 : readings.length = 5) : majoritySpec readings := by
  obtain ⟨a, b, c, d, e, rfl⟩ := length_five_eq readings h5
  clear h5
  unfold majoritySpec
  revert a b c d e
  decide

/-- Witness for C1 at the spec's own example `[rock, rock, idle, paper, rock]`. -/
theorem resolveVotes_majority_spec_witness :
    ([GameChoice.rock, GameChoice.rock, GameChoice.idle, GameChoice.paper,
        GameChoice.rock].length = 5) ∧
    majoritySpec [GameChoice.rock, GameChoice.rock, GameChoice.idle,
        GameChoice.paper, GameChoice.rock] :=
  ⟨rfl, resolveVotes_majority_spec _ rfl⟩

/-- Claim C2 counterexample: the reset operation does NOT cancel a pending
countdown timer. Starting a round from the initial state schedules the
interval (`timer = some 3`); resetting mid-countdown leaves it scheduled,
and three stale ticks after the reset fire into the capture phase of a
game that should be sitting in `waiting`. -/
theorem resetGame_timer_counterexample :
    (resetGame (startRound initialGameState)).timer = some 3 ∧
    (timerTick (timerTick (timerTick (resetGame (startRound initialGameState))))).phase
      = GamePhase.capture := by decide

/-- Claim C2 (amended): the reset operation, invoked from any state, sets
the phase to waiting, the score to (0,0) and the round counter to 0 (and
restores countdown 3, idle choices and a null result), but leaves any
scheduled countdown interval untouched — `resetGame` never calls
`clearInterval`, so timer cancellation happens only inside the tick that
reaches zero; in the UI the reset button is hidden during the countdown
and capture phases. -/
theorem resetGame_amended_spec (s : GameState) :
    (resetGame s).phase = GamePhase.waiting ∧
    (resetGame s).score = { player := 0, computer := 0 } ∧
    (resetGame s).roundNumber = 0 ∧
    (resetGame s).countdown = 3 ∧
    (resetGame s).playerChoice = GameChoice.idle ∧
    (resetGame s).computerChoice = GameChoice.idle ∧
    (resetGame s).result = none ∧
    (resetGame s).timer = s.timer :=
  ⟨rfl, rfl, rfl, rfl, rfl, rfl, rfl, rfl⟩

/-- Claim C3: for every pair of non-idle moves the outcome follows the
cyclic beats-relation — rock beats scissors, scissors beats paper, paper
beats rock (win for the player on those three ordered pairs, lose on the
three inverses), and equal non-idle moves draw. All nine ordered pairs of
non-idle moves are enumerated. -/
theorem getResult_cyclic_beats :
    getResult GameChoice.rock GameChoice.scisors = GameResult.win ∧
    getResult GameChoice.scisors GameChoice.paper = GameResult.win ∧
    getResult GameChoice.paper GameChoice.rock = GameResult.win ∧
    getResult GameChoice.scisors GameChoice.rock = GameResult.lose ∧
    getResult GameChoice.paper GameChoice.scisors = GameResult.lose ∧
    getResult GameChoice.rock GameChoice.paper = GameResult.lose ∧
    getResult GameChoice.rock GameChoice.rock = GameResult.draw ∧
    getResult GameChoice.paper GameChoice.paper = GameResult.draw ∧
    getResult GameChoice.scisors GameChoice.scisors = GameResult.draw := by
  decide

/-- Claim C4: for every computer move, an idle player move yields lose —
an automatic forfeit, never draw or win, regardless of the computer's
move. -/
theorem getResult_idle_forfeit :
    ∀ computer : GameChoice, getResult GameChoice.idle computer = GameResult.lose := by
  decide

/-- Claim C5: every round resolution increments the round counter by
exactly 1 and updates the score for at most one side — a win adds 1 to
the player's score only, a lose adds 1 to the computer's score only, a
draw changes neither — hence after any sequence of resolutions the score
equals the accumulated (wins, losses), the round counter grew by the
number of resolutions, and both score components are monotonically
non-decreasing. -/
theorem resolveRound_score_round_spec (s : GameState) (p c : GameChoice)
    (picks : List (GameChoice × GameChoice)) :
    (resolveRound p c s).roundNumber = s.roundNumber + 1 ∧
    (resolveRound p c s).score.player
      = s.score.player + (if getResult p c = GameResult.win then 1 else 0) ∧
    (resolveRound p c s).score.computer
      = s.score.computer + (if getResult p c = GameResult.lose then 1 else 0) ∧
    s.score.player ≤ (resolveRound p c s).score.player ∧
    s.score.computer ≤ (resolveRound p c s).score.computer ∧
    (playRounds s picks).roundNumber = s.roundNumber + picks.length ∧
    (playRounds s picks).score.player = s.score.player + winsIn picks ∧
    (playRounds s picks).score.computer = s.score.computer + lossesIn picks := by
  obtain ⟨h1, h2, h3⟩ := playRounds_spec picks s
  refine ⟨resolveRound_round p c s, resolveRound_player_score p c s,
    resolveRound_computer_score p c s, ?_, ?_, h1, h2, h3⟩
  · rw [resolveRound_player_score]
    omega
  · rw [resolveRound_computer_score]
    omega

/-- Claim C6: the classifier adapter's top-prediction operation never
fails — it is a total function — and returns idle whenever the model is
unavailable (`predict` yields `[]`) or every prediction's probability is
below the 0.6 threshold (in particular whenever the highest-confidence
entry is below it, regardless of its raw label). -/
theorem getTopPrediction_idle_policy (modelAvailable : Bool) (raw : List Prediction)
    (h : modelAvailable = false
      ∨ ∀ q ∈ predict modelAvailable raw, q.probability < 3/5) :
    getTopPrediction (predict modelAvailable raw) = GameChoice.idle := by
  rcases h with h | h
  · subst h
    rfl
  · cases hm : modelAvailable with
    | false => rfl
    | true =>
      rw [hm] at h
      simp only [predict, if_true] at h ⊢
      cases raw with
      | nil => rfl
      | cons p ps =>
        have hlt := h _ (topOf_mem p ps)
        simp [getTopPrediction, hlt]

/-- Witness for C6 at a loaded model whose single prediction has
confidence 1/2, below the 0.6 threshold. -/
theorem getTopPrediction_idle_policy_witness :
    ((true = false)
      ∨ ∀ q ∈ predict true [⟨GameChoice.rock, 1/2⟩], q.probability < 3/5) ∧
    getTopPrediction (predict true [⟨GameChoice.rock, 1/2⟩]) = GameChoice.idle :=
  ⟨Or.inr (by
      intro q hq
      simp [predict] at hq
      subst hq
      norm_num),
   getTopPrediction_idle_policy true [⟨GameChoice.rock, 1/2⟩] (Or.inr (by
      intro q hq
      simp [predict] at hq
      subst hq
      norm_num))⟩

/-- Claim C7: when the frame source is unavailable at capture time the
capture procedure resolves the round immediately with the player's move
forced to idle — a forfeit (`lose`) outcome — ignoring the sampling
oracle entirely (no classification samples influence the result). -/
theorem captureStep_no_frame_forfeit (readings : List GameChoice)
    (compPick : GameChoice) (s : GameState) :
    captureStep none readings compPick s = resolveRound GameChoice.idle compPick s ∧
    (captureStep none readings compPick s).result = some GameResult.lose ∧
    handleCapture none readings = GameChoice.idle ∧
    ∀ other : List GameChoice,
      captureStep none readings compPick s = captureStep none other compPick s :=
  ⟨rfl, rfl, rfl, fun _ => rfl⟩

/-- Claim C8: the majority-vote resolution is deterministic — two runs on
the same sequence of sampled labels resolve to the same label. -/
theorem resolveVotes_deterministic (v1 v2 : List GameChoice) (h : v1 = v2) :
    resolveVotes v1 = resolveVotes v2 := by
  rw [h]

/-- Witness for C8 at the spec's example vote list. -/
theorem resolveVotes_deterministic_witness :
    ([GameChoice.rock, GameChoice.rock, GameChoice.idle, GameChoice.paper,
        GameChoice.rock]
      = [GameChoice.rock, GameChoice.rock, GameChoice.idle, GameChoice.paper,
        GameChoice.rock]) ∧
    resolveVotes [GameChoice.rock, GameChoice.rock, GameChoice.idle,
        GameChoice.paper, GameChoice.rock]
      = resolveVotes [GameChoice.rock, GameChoice.rock, GameChoice.idle,
        GameChoice.paper, GameChoice.rock] :=
  ⟨rfl, resolveVotes_deterministic _ _ rfl⟩

/-- Claim C9: idle votes never compete as a candidate — if a non-idle
label reaches at least 2 votes in a 5-sample list while every other
non-idle label stays below 2, that label is resolved as the player's
move, no matter how many idle samples there are (in particular
`[idle, idle, idle, rock, rock]` resolves to rock, not a forfeit). -/
theorem resolveVotes_idle_not_candidate (readings : List GameChoice)
    (c : GameChoice) (h5 : readings.length = 5) (hc : c ≠ GameChoice.idle)
    (h2 : 2 ≤ readings.count c)
    (hother : ∀ d, d ≠ GameChoice.idle → d ≠ c → readings.count d < 2) :
    resolveVotes readings = c := by
  obtain ⟨a, b, x, y, z, rfl⟩ := length_five_eq readings h5
  clear h5
  revert hother h2 hc
  revert a b x y z c
  decide

/-- Witness for C9 at `[idle, idle, idle, rock, rock]`, where idle holds
a strict majority of the samples yet rock wins with 2 votes. -/
theorem resolveVotes_idle_not_candidate_witness :
    ([GameChoice.idle, GameChoice.idle, GameChoice.idle, GameChoice.rock,
        GameChoice.rock].length = 5 ∧
      GameChoice.rock ≠ GameChoice.idle ∧
      2 ≤ [GameChoice.idle, GameChoice.idle, GameChoice.idle, GameChoice.rock,
        GameChoice.rock].count GameChoice.rock ∧
      (∀ d, d ≠ GameChoice.idle → d ≠ GameChoice.rock →
        [GameChoice.idle, GameChoice.idle, GameChoice.idle, GameChoice.rock,
          GameChoice.rock].count d < 2)) ∧
    resolveVotes [GameChoice.idle, GameChoice.idle, GameChoice.idle,
      GameChoice.rock, GameChoice.rock] = GameChoice.rock :=
  ⟨⟨rfl, by decide, by decide, by decide⟩,
   resolveVotes_idle_not_candidate _ _ rfl (by decide) (by decide) (by decide)⟩

/-- Claim C10: when both moves are idle the outcome is lose for the
player, not draw — the idle-forfeit branch of `getResult` precedes the
equal-moves branch. -/
theorem getResult_idle_idle_lose :
    getResult GameChoice.idle GameChoice.idle = GameResult.lose ∧
    getResult GameChoice.idle GameChoice.idle ≠ GameResult.draw := by
  decide
